import Mathlib

/-!
Shallow embedding of `scripts/generate_test_data.py` (the single source file
of the repository): a generator that writes a CSV file with a header row and
`rows` data rows, whose columns are partitioned into numeric, categorical and
text groups.

Randomness is modelled by an `Oracle`: three arbitrary streams (uniform draws,
Gaussian draws, integer draws) indexed by a tick counter that every call to a
random primitive advances, so every theorem quantified over the oracle covers
every possible sequence of random outcomes.
-/

namespace Beefcake

/-- The source of randomness: `unif k` models the value returned by the
`k`-th call to `random.random()`, `gaussv k` the value returned by
`random.gauss`, and `nat k` the raw integer draw consumed by `random.randint`,
`random.choice` and `random.choices`. -/
structure Oracle where
  unif : Nat → ℚ
  gaussv : Nat → ℚ
  nat : Nat → Nat

/-- Model of `random.random()`: one uniform draw, one tick. -/
def pyRandom (o : Oracle) (k : Nat) : ℚ × Nat := (o.unif k, k + 1)

/-- Model of `random.gauss(mu, sigma)`: an arbitrary real draw, one tick.
The parameters do not constrain the sampled value structurally. -/
def pyGauss (o : Oracle) (mu sigma : ℚ) (k : Nat) : ℚ × Nat := (o.gaussv k, k + 1)

/-- Model of `random.randint(lo, hi)` (both bounds inclusive): the raw draw
is reduced into the range `[lo, hi]`. -/
def pyRandint (o : Oracle) (lo hi : Nat) (k : Nat) : Nat × Nat :=
  (lo + o.nat k % (hi - lo + 1), k + 1)

/-- Model of `random.choice(l)`: an element of `l` at a drawn index
(for the empty list, which the script never passes, the default `""`). -/
def pyChoice (o : Oracle) (l : List String) (k : Nat) : String × Nat :=
  (l.getD (o.nat k % l.length) "", k + 1)

/-- Model of `random.choices(population, k=cnt)`: `cnt` independent draws
from the population. -/
def pyChoices (o : Oracle) (l : List Char) (cnt : Nat) (k : Nat) : List Char × Nat :=
  ((List.range cnt).map (fun j => l.getD (o.nat (k + j) % l.length) ' '), k + cnt)

/-- The decimal digit characters used by Python's integer rendering. -/
def digitChar (d : Nat) : Char :=
  match d with
  | 0 => '0' | 1 => '1' | 2 => '2' | 3 => '3' | 4 => '4'
  | 5 => '5' | 6 => '6' | 7 => '7' | 8 => '8' | _ => '9'

/-- `true` on the ASCII decimal digits. -/
def isDigitChar (c : Char) : Bool := 48 ≤ c.toNat && c.toNat ≤ 57

/-- Numeric value of a digit character (inverse of `digitChar`). -/
def digitVal (c : Char) : Nat := c.toNat - 48

/-- Fuelled big-endian decimal expansion of a natural number. -/
def natToDigitsAux (fuel : Nat) (n : Nat) : List Char :=
  match fuel with
  | 0 => []
  | fuel + 1 =>
    if n < 10 then [digitChar n]
    else natToDigitsAux fuel (n / 10) ++ [digitChar (n % 10)]

/-- Decimal digit list of a natural number (`fuel = n + 1` always suffices). -/
def natToDigits (n : Nat) : List Char := natToDigitsAux (n + 1) n

/-- Model of Python's `str` on a non-negative integer, as used by f-strings. -/
def natStr (n : Nat) : String := String.mk (natToDigits n)

/-- Value of a digit list, most significant digit first. -/
def digitsVal (cs : List Char) : Nat := cs.foldl (fun a c => 10 * a + digitVal c) 0

/-- Two-digit rendering of a fraction part `n < 100`, as `"%.2f"` produces. -/
def pad2 (n : Nat) : String := if n < 10 then "0" ++ natStr n else natStr n

/-- The value of `q` in hundredths, rounded to the nearest integer:
`⌊(100 q) + 1/2⌋` computed on the numerator and denominator. -/
def roundHundredths (q : ℚ) : ℤ :=
  Int.fdiv (2 * (100 * q.num) + q.den) (2 * q.den)

/-- Model of `f"{x:.2f}"`: fixed-point rendering with exactly two digits
after the decimal point (the value rounded to a whole number of hundredths). -/
def formatFixed2 (q : ℚ) : String :=
  let c : ℤ := roundHundredths q
  (if c < 0 then "-" else "") ++ natStr (c.natAbs / 100) ++ "." ++ pad2 (c.natAbs % 100)

/-- `numeric_cols = num_cols // 3` (source line 26; Python `//` is floor
division, `Int.fdiv`). -/
def numeric_cols (num_cols : ℤ) : ℤ := Int.fdiv num_cols 3

/-- `categorical_cols = num_cols // 3` (source line 27). -/
def categorical_cols (num_cols : ℤ) : ℤ := Int.fdiv num_cols 3

/-- `text_cols = num_cols - numeric_cols - categorical_cols` (source line 28). -/
def text_cols (num_cols : ℤ) : ℤ :=
  num_cols - numeric_cols num_cols - categorical_cols num_cols

/-- Model of Python `range(n)` on a possibly negative int: empty for `n ≤ 0`. -/
def pyRange (n : ℤ) : List Nat := List.range n.toNat

/-- The header row (source lines 37-40): numeric names, then categorical
names, then text names, each group zero-indexed independently. -/
def headers (num_cols : ℤ) : List String :=
  ((pyRange (numeric_cols num_cols)).map (fun i => "numeric_" ++ natStr i))
    ++ ((pyRange (categorical_cols num_cols)).map (fun i => "category_" ++ natStr i))
    ++ ((pyRange (text_cols num_cols)).map (fun i => "text_" ++ natStr i))

/-- The pool of labels for categorical column `i`: `"Cat<i>_<j>"` for
`j < size` (source line 44). -/
def mkPool (i size : Nat) : List String :=
  (List.range size).map (fun j => "Cat" ++ natStr i ++ "_" ++ natStr j)

/-- Sequential generation of one pool per categorical column index, each
with an independent `randint(5, 50)` size draw (source lines 43-46). -/
def mkCategories (o : Oracle) : List Nat → Nat → List (List String) × Nat
  | [], k => ([], k)
  | i :: is, k =>
    let p := pyRandint o 5 50 k
    let rest := mkCategories o is p.2
    (mkPool i p.1 :: rest.1, rest.2)

/-- `categories` (source lines 43-46): one pool per categorical column,
generated before any row is written. -/
def categories (o : Oracle) (num_cols : ℤ) (k : Nat) : List (List String) × Nat :=
  mkCategories o (pyRange (categorical_cols num_cols)) k

/-- One numeric field (source lines 58-62): empty when the uniform draw is
below `0.05`, otherwise the Gaussian sample formatted with two fraction
digits. -/
def genNumericField (o : Oracle) (k : Nat) : String × Nat :=
  let p := pyRandom o k
  if p.1 < mkRat 5 100 then ("", p.2)
  else
    let g := pyGauss o 100 50 p.2
    (formatFixed2 g.1, g.2)

/-- One categorical field (source lines 65-69): empty when the uniform draw
is below `0.02`, otherwise a uniformly chosen pool entry. -/
def genCategoricalField (o : Oracle) (pool : List String) (k : Nat) : String × Nat :=
  let p := pyRandom o k
  if p.1 < mkRat 2 100 then ("", p.2)
  else pyChoice o pool p.2

/-- `string.ascii_letters + string.digits + ' '` (source line 77). -/
def alphabet : List Char :=
  "abcdefghijklmnopqrstuvwxyzABCDEFGHIJKLMNOPQRSTUVWXYZ0123456789 ".toList

/-- One text field (source lines 72-77): empty when the uniform draw is
below `0.03`, otherwise a string of `randint(10, 50)` characters drawn
from `alphabet`. -/
def genTextField (o : Oracle) (k : Nat) : String × Nat :=
  let p := pyRandom o k
  if p.1 < mkRat 3 100 then ("", p.2)
  else
    let len := pyRandint o 10 50 p.2
    let cs := pyChoices o alphabet len.1 len.2
    (String.mk cs.1, cs.2)

/-- The numeric segment of one row: `numeric_cols` fields in order. -/
def genNumerics (o : Oracle) : Nat → Nat → List String × Nat
  | 0, k => ([], k)
  | n + 1, k =>
    let p := genNumericField o k
    let rest := genNumerics o n p.2
    (p.1 :: rest.1, rest.2)

/-- The categorical segment of one row: one field per index `i`, drawn
from `categories[i]`. -/
def genCategoricals (o : Oracle) (cats : List (List String)) :
    List Nat → Nat → List String × Nat
  | [], k => ([], k)
  | i :: is, k =>
    let p := genCategoricalField o (cats.getD i []) k
    let rest := genCategoricals o cats is p.2
    (p.1 :: rest.1, rest.2)

/-- The text segment of one row: `text_cols` fields in order. -/
def genTexts (o : Oracle) : Nat → Nat → List String × Nat
  | 0, k => ([], k)
  | n + 1, k =>
    let p := genTextField o k
    let rest := genTexts o n p.2
    (p.1 :: rest.1, rest.2)

/-- One data row (source lines 55-77): numeric fields, then categorical
fields, then text fields, in header order. -/
def genRow (o : Oracle) (cats : List (List String)) (num_cols : ℤ) (k : Nat) :
    List String × Nat :=
  let ns := genNumerics o (numeric_cols num_cols).toNat k
  let cs := genCategoricals o cats (pyRange (categorical_cols num_cols)) ns.2
  let ts := genTexts o (text_cols num_cols).toNat cs.2
  (ns.1 ++ cs.1 ++ ts.1, ts.2)

/-- The data rows, generated and written one at a time (source line 54). -/
def genRows (o : Oracle) (cats : List (List String)) (num_cols : ℤ) :
    Nat → Nat → List (List String) × Nat
  | 0, k => ([], k)
  | n + 1, k =>
    let r := genRow o cats num_cols k
    let rest := genRows o cats num_cols n r.2
    (r.1 :: rest.1, rest.2)

/-- `generate_test_csv` (source lines 14-79), as the list of records written
to the file: the header record first, then one record per data row. The
category pools are generated once, before any row. -/
def generate_test_csv (o : Oracle) (rows num_cols : ℤ) : List (List String) :=
  let cats := categories o num_cols 0
  (headers num_cols) :: (genRows o cats.1 num_cols rows.toNat cats.2).1

/-- A field needs CSV quoting when it contains the delimiter, the quote
character or a line break (Python `csv.writer`, QUOTE_MINIMAL). -/
def needsQuote (s : String) : Bool :=
  s.data.any (fun c => c == ',' || c == '"' || c == '\n' || c == '\r')

/-- CSV quoting of a field: surrounding quotes, embedded quotes doubled. -/
def quoteField (s : String) : String :=
  String.mk ('"' :: (s.data.flatMap (fun c => if c = '"' then ['"', '"'] else [c])) ++ ['"'])

/-- The text written for one field by `csv.writer`. -/
def csvField (s : String) : String := if needsQuote s then quoteField s else s

/-- Comma-join of encoded fields. -/
def joinComma : List (List Char) → List Char
  | [] => []
  | [x] => x
  | x :: y :: xs => x ++ ',' :: joinComma (y :: xs)

/-- The characters of one record before the line terminator. Besides the
per-field rule, `csv.writer` has one record-level QUOTE_MINIMAL rule: a
record consisting of exactly one empty field is written as the quoted empty
field (two quote characters), since otherwise the line could not be told
apart from an empty record. -/
def recordBody (r : List String) : List Char :=
  if r = [""] then ['"', '"']
  else joinComma (r.map (fun f => (csvField f).data))

/-- One physical record as written by `csv.writer` (default `\r\n`
terminator, written literally because the file is opened with
`newline=''`). -/
def csvRecord (r : List String) : String :=
  String.mk (recordBody r ++ ['\r', '\n'])

/-- Model of Python `int(s)`: optional surrounding spaces, an optional
sign, then a non-empty run of ASCII decimal digits; anything else fails. -/
def pyInt (s : String) : Option ℤ :=
  let cs := (((s.data.dropWhile (fun c => c == ' ')).reverse.dropWhile
    (fun c => c == ' ')).reverse)
  match cs with
  | [] => none
  | c :: rest =>
    if c = '-' then
      if !rest.isEmpty && rest.all isDigitChar then some (-(digitsVal rest : ℤ)) else none
    else if c = '+' then
      if !rest.isEmpty && rest.all isDigitChar then some (digitsVal rest : ℤ) else none
    else
      if (c :: rest).all isDigitChar then some (digitsVal (c :: rest) : ℤ) else none

/-- `num_rows` from the command line (source lines 100, 105-106):
default `5_000_000`, else `int(sys.argv[1])`. -/
def rowsArg (argv : List String) : Except String ℤ :=
  if argv.length > 1 then
    match pyInt (argv.getD 1 "") with
    | none => Except.error "ValueError"
    | some r => Except.ok r
  else Except.ok 5000000

/-- `num_cols` from the command line (source lines 101, 107-108):
default `100`, else `int(sys.argv[2])`; only parsed after `num_rows`
parsed successfully. -/
def colsArg (argv : List String) : Except String ℤ :=
  if argv.length > 2 then
    match pyInt (argv.getD 2 "") with
    | none => Except.error "ValueError"
    | some c => Except.ok c
  else Except.ok 100

/-- `output` from the command line (source lines 102, 109-110). -/
def outputArg (argv : List String) : String :=
  if argv.length > 3 then argv.getD 3 "" else "test_5M_100cols.csv"

/-- The `__main__` block (source lines 98-117): parse the arguments in
order; on a parse failure the run aborts with the error before
`generate_test_csv` is reached (no output file is created); otherwise the
result is the output path and the records written to it. -/
def runMain (o : Oracle) (argv : List String) :
    Except String (String × List (List String)) :=
  match rowsArg argv with
  | Except.error e => Except.error e
  | Except.ok r =>
    match colsArg argv with
    | Except.error e => Except.error e
    | Except.ok c => Except.ok (outputArg argv, generate_test_csv o r c)

/-- Process exit status: `0` on normal completion, nonzero on an uncaught
exception. -/
def exitCode (r : Except String (String × List (List String))) : Nat :=
  match r with
  | Except.error _ => 1
  | Except.ok _ => 0

/-- A concrete oracle whose uniform draws are all `0` (every null branch
taken). -/
def o0 : Oracle := ⟨fun _ => 0, fun _ => 0, fun _ => 0⟩

/-- A concrete oracle whose uniform draws are all `1` (no null branch
taken). -/
def o1 : Oracle := ⟨fun _ => 1, fun _ => 0, fun _ => 0⟩

/-- A string that parses as a finite decimal number with exactly two digits
after the decimal point: an optional minus sign, a non-empty run of digits,
a point, and exactly two digits. -/
def isTwoFracString (s : String) : Prop :=
  ∃ (neg : Bool) (ipcs : List Char) (d1 d2 : Char),
    ipcs ≠ [] ∧ (∀ c ∈ ipcs, isDigitChar c = true) ∧
    isDigitChar d1 = true ∧ isDigitChar d2 = true ∧
    s.data = (if neg then ['-'] else []) ++ ipcs ++ '.' :: [d1, d2]

/-- A field that never triggers CSV quoting: no delimiter, no quote
character, no line break. -/
def cleanField (s : String) : Prop :=
  ∀ c ∈ s.data, c ≠ ',' ∧ c ≠ '"' ∧ c ≠ '\n' ∧ c ≠ '\r'

/-- The shape of a non-null text field: length between 10 and 50 and every
character from the generator's alphabet. -/
def isTextString (s : String) : Prop :=
  10 ≤ s.data.length ∧ s.data.length ≤ 50 ∧ ∀ c ∈ s.data, c ∈ alphabet

theorem digitVal_digitChar : ∀ d, d < 10 → digitVal (digitChar d) = d := by decide

theorem isDigitChar_digitChar : ∀ d, d < 10 → isDigitChar (digitChar d) = true := by decide

theorem digitsVal_append_single (l : List Char) (c : Char) :
    digitsVal (l ++ [c]) = 10 * digitsVal l + digitVal c := by
  simp [digitsVal, List.foldl_append]

theorem natToDigitsAux_spec :
    ∀ fuel n, n < fuel →
      natToDigitsAux fuel n ≠ [] ∧
      (∀ c ∈ natToDigitsAux fuel n, isDigitChar c = true) ∧
      digitsVal (natToDigitsAux fuel n) = n := by
  intro fuel
  induction fuel with
  | zero => intro n h; exact absurd h (Nat.not_lt_zero n)
  | succ fuel ih =>
    intro n h
    by_cases h10 : n < 10
    · refine ⟨by simp [natToDigitsAux, h10], ?_, ?_⟩
      · intro c hc
        simp [natToDigitsAux, h10] at hc
        subst hc
        exact isDigitChar_digitChar n h10
      · simp [natToDigitsAux, h10, digitsVal, List.foldl]
        exact digitVal_digitChar n h10
    · have hrec : n / 10 < fuel := by omega
      obtain ⟨hne, hdig, hval⟩ := ih (n / 10) hrec
      have hunfold : natToDigitsAux (fuel + 1) n
          = natToDigitsAux fuel (n / 10) ++ [digitChar (n % 10)] := by
        simp [natToDigitsAux, h10]
      refine ⟨?_, ?_, ?_⟩
      · rw [hunfold]; simp
      · intro c hc
        rw [hunfold] at hc
        rcases List.mem_append.mp hc with hc | hc
        · exact hdig c hc
        · have : c = digitChar (n % 10) := by simpa using hc
          subst this
          exact isDigitChar_digitChar _ (Nat.mod_lt n (by norm_num))
      · rw [hunfold, digitsVal_append_single, hval,
          digitVal_digitChar _ (Nat.mod_lt n (by norm_num))]
        omega

theorem natToDigits_ne_nil (n : Nat) : natToDigits n ≠ [] :=
  (natToDigitsAux_spec (n + 1) n (Nat.lt_succ_self n)).1

theorem natToDigits_digits (n : Nat) : ∀ c ∈ natToDigits n, isDigitChar c = true :=
  (natToDigitsAux_spec (n + 1) n (Nat.lt_succ_self n)).2.1

theorem digitsVal_natToDigits (n : Nat) : digitsVal (natToDigits n) = n :=
  (natToDigitsAux_spec (n + 1) n (Nat.lt_succ_self n)).2.2

theorem natStr_data (n : Nat) : (natStr n).data = natToDigits n := rfl

theorem natStr_injective : Function.Injective natStr := by
  intro m n h
  have hd : natToDigits m = natToDigits n := congrArg String.data h
  have := digitsVal_natToDigits m
  rw [hd, digitsVal_natToDigits] at this
  exact this.symm

theorem natToDigitsAux_of_lt (fuel n : Nat) (hf : 0 < fuel) (h : n < 10) :
    natToDigitsAux fuel n = [digitChar n] := by
  cases fuel with
  | zero => exact absurd hf (by omega)
  | succ fuel => simp [natToDigitsAux, h]

theorem pad2_shape (f : Nat) (h : f < 100) :
    ∃ d1 d2, isDigitChar d1 = true ∧ isDigitChar d2 = true ∧ (pad2 f).data = [d1, d2] := by
  by_cases h10 : f < 10
  · refine ⟨'0', digitChar f, by decide, isDigitChar_digitChar f h10, ?_⟩
    rw [pad2, if_pos h10, String.data_append, natStr_data, natToDigits,
      natToDigitsAux_of_lt _ _ (by omega) h10]
    rfl
  · refine ⟨digitChar (f / 10), digitChar (f % 10),
      isDigitChar_digitChar _ (by omega),
      isDigitChar_digitChar _ (Nat.mod_lt f (by norm_num)), ?_⟩
    rw [pad2, if_neg h10, natStr_data, natToDigits]
    have hunfold : natToDigitsAux (f + 1) f
        = natToDigitsAux f (f / 10) ++ [digitChar (f % 10)] := by
      simp [natToDigitsAux, h10]
    rw [hunfold, natToDigitsAux_of_lt f (f / 10) (by omega) (by omega)]
    rfl

theorem isTwoFracString_ne_empty {s : String} (h : isTwoFracString s) : s ≠ "" := by
  obtain ⟨neg, ipcs, d1, d2, hne, -, -, -, hdata⟩ := h
  intro hcon
  subst hcon
  simp at hdata

theorem formatFixed2_shape (q : ℚ) : isTwoFracString (formatFixed2 q) := by
  obtain ⟨d1, d2, hd1, hd2, hpad⟩ :=
    pad2_shape ((roundHundredths q).natAbs % 100) (Nat.mod_lt _ (by norm_num))
  refine ⟨decide (roundHundredths q < 0), natToDigits ((roundHundredths q).natAbs / 100),
    d1, d2, natToDigits_ne_nil _, natToDigits_digits _, hd1, hd2, ?_⟩
  show ((if roundHundredths q < 0 then "-" else "") ++ natStr _ ++ "." ++ pad2 _).data = _
  rw [String.data_append, String.data_append, String.data_append, natStr_data, hpad]
  by_cases hneg : roundHundredths q < 0
  · simp [hneg]
  · simp [hneg]

theorem genNumericField_empty_iff (o : Oracle) (k : Nat) :
    (genNumericField o k).1 = "" ↔ o.unif k < mkRat 5 100 := by
  constructor
  · intro h
    by_contra hcon
    simp only [genNumericField, pyRandom, pyGauss] at h
    rw [if_neg hcon] at h
    exact isTwoFracString_ne_empty (formatFixed2_shape _) h
  · intro h
    simp only [genNumericField, pyRandom, pyGauss]
    rw [if_pos h]

theorem genNumericField_of_not_lt (o : Oracle) (k : Nat)
    (h : ¬ o.unif k < mkRat 5 100) :
    (genNumericField o k).1 = formatFixed2 (pyGauss o 100 50 (k + 1)).1 := by
  simp only [genNumericField, pyRandom, pyGauss]
  rw [if_neg h]

theorem genNumericField_shape (o : Oracle) (k : Nat) :
    (genNumericField o k).1 = "" ∨ isTwoFracString (genNumericField o k).1 := by
  by_cases h : o.unif k < mkRat 5 100
  · exact Or.inl ((genNumericField_empty_iff o k).mpr h)
  · right
    simp only [genNumericField, pyRandom, pyGauss]
    rw [if_neg h]
    exact formatFixed2_shape _

theorem genCategoricalField_shape (o : Oracle) (pool : List String) (k : Nat) :
    (genCategoricalField o pool k).1 = "" ∨ (genCategoricalField o pool k).1 ∈ pool := by
  by_cases h : o.unif k < mkRat 2 100
  · left; simp only [genCategoricalField, pyRandom]; rw [if_pos h]
  · simp only [genCategoricalField, pyRandom, pyChoice]
    rw [if_neg h]
    cases pool with
    | nil => left; rfl
    | cons a l =>
      right
      show (a :: l).getD (o.nat (k + 1) % (a :: l).length) "" ∈ a :: l
      have hlt : o.nat (k + 1) % (a :: l).length < (a :: l).length :=
        Nat.mod_lt _ (by simp)
      rw [List.getD_eq_getElem _ _ hlt]
      exact List.getElem_mem hlt

theorem genCategoricalField_of_lt (o : Oracle) (pool : List String) (k : Nat)
    (h : o.unif k < mkRat 2 100) : (genCategoricalField o pool k).1 = "" := by
  simp only [genCategoricalField, pyRandom]
  rw [if_pos h]

theorem genCategoricalField_of_not_lt (o : Oracle) (pool : List String) (k : Nat)
    (h : ¬ o.unif k < mkRat 2 100) :
    (genCategoricalField o pool k).1 = (pyChoice o pool (k + 1)).1 := by
  simp only [genCategoricalField, pyRandom, pyChoice]
  rw [if_neg h]

theorem genTextField_shape (o : Oracle) (k : Nat) :
    (genTextField o k).1 = "" ∨ isTextString (genTextField o k).1 := by
  by_cases h : o.unif k < mkRat 3 100
  · left; simp only [genTextField, pyRandom]; rw [if_pos h]
  · right
    simp only [genTextField, pyRandom, pyRandint, pyChoices]
    rw [if_neg h]
    have halpha : alphabet.length = 63 := by decide
    refine ⟨?_, ?_, ?_⟩
    · show 10 ≤ ((List.range (10 + o.nat (k + 1) % 41)).map _).length
      simp
    · show ((List.range (10 + o.nat (k + 1) % 41)).map _).length ≤ 50
      have := Nat.mod_lt (o.nat (k + 1)) (show 0 < 41 by norm_num)
      simp
      omega
    · intro c hc
      simp only [pyChoices, List.mem_map, List.mem_range] at hc
      obtain ⟨j, -, hj⟩ := hc
      have hlt : o.nat (k + 1 + 1 + j) % alphabet.length < alphabet.length := by
        rw [halpha]; exact Nat.mod_lt _ (by norm_num)
      rw [← hj, List.getD_eq_getElem _ _ hlt]
      exact List.getElem_mem hlt

theorem genNumerics_length (o : Oracle) : ∀ n k, ((genNumerics o n k).1).length = n := by
  intro n
  induction n with
  | zero => intro k; rfl
  | succ n ih => intro k; simp only [genNumerics, List.length_cons, ih]

theorem genNumerics_mem (o : Oracle) :
    ∀ n k s, s ∈ (genNumerics o n k).1 → ∃ j, s = (genNumericField o j).1 := by
  intro n
  induction n with
  | zero => intro k s h; simp [genNumerics] at h
  | succ n ih =>
    intro k s h
    simp only [genNumerics, List.mem_cons] at h
    rcases h with h | h
    · exact ⟨k, h⟩
    · exact ih _ s h

theorem genTexts_length (o : Oracle) : ∀ n k, ((genTexts o n k).1).length = n := by
  intro n
  induction n with
  | zero => intro k; rfl
  | succ n ih => intro k; simp only [genTexts, List.length_cons, ih]

theorem genTexts_mem (o : Oracle) :
    ∀ n k s, s ∈ (genTexts o n k).1 → ∃ j, s = (genTextField o j).1 := by
  intro n
  induction n with
  | zero => intro k s h; simp [genTexts] at h
  | succ n ih =>
    intro k s h
    simp only [genTexts, List.mem_cons] at h
    rcases h with h | h
    · exact ⟨k, h⟩
    · exact ih _ s h

theorem genCategoricals_length (o : Oracle) (cats : List (List String)) :
    ∀ is k, ((genCategoricals o cats is k).1).length = is.length := by
  intro is
  induction is with
  | nil => intro k; rfl
  | cons i is ih => intro k; simp only [genCategoricals, List.length_cons, ih]

theorem genCategoricals_getD (o : Oracle) (cats : List (List String)) :
    ∀ is k j, j < is.length →
      ((genCategoricals o cats is k).1).getD j "" = "" ∨
      ((genCategoricals o cats is k).1).getD j "" ∈ cats.getD (is.getD j 0) [] := by
  intro is
  induction is with
  | nil => intro k j h; simp at h
  | cons i is ih =>
    intro k j hj
    cases j with
    | zero =>
      simp only [genCategoricals, List.getD_cons_zero]
      exact genCategoricalField_shape o (cats.getD i []) k
    | succ j =>
      simp only [genCategoricals, List.getD_cons_succ]
      exact ih _ j (by simpa using hj)

theorem genCategoricals_mem (o : Oracle) (cats : List (List String)) :
    ∀ is k s, s ∈ (genCategoricals o cats is k).1 →
      s = "" ∨ ∃ i, s ∈ cats.getD i [] := by
  intro is
  induction is with
  | nil => intro k s h; simp [genCategoricals] at h
  | cons i is ih =>
    intro k s h
    simp only [genCategoricals, List.mem_cons] at h
    rcases h with h | h
    · rcases genCategoricalField_shape o (cats.getD i []) k with hc | hc
      · exact Or.inl (h.trans hc)
      · exact Or.inr ⟨i, h ▸ hc⟩
    · exact ih _ s h

theorem genRow_eq (o : Oracle) (cats : List (List String)) (n : ℤ) (k : Nat) :
    (genRow o cats n k).1
      = (genNumerics o (numeric_cols n).toNat k).1
        ++ (genCategoricals o cats (pyRange (categorical_cols n))
              (genNumerics o (numeric_cols n).toNat k).2).1
        ++ (genTexts o (text_cols n).toNat
              (genCategoricals o cats (pyRange (categorical_cols n))
                (genNumerics o (numeric_cols n).toNat k).2).2).1 := rfl

theorem genRow_length (o : Oracle) (cats : List (List String)) (n : ℤ) (k : Nat) :
    (genRow o cats n k).1.length
      = (numeric_cols n).toNat + (categorical_cols n).toNat + (text_cols n).toNat := by
  rw [genRow_eq]
  simp [genNumerics_length, genCategoricals_length, genTexts_length, pyRange]
  omega

theorem genRow_numeric (o : Oracle) (cats : List (List String)) (n : ℤ) (k : Nat)
    (j : Nat) (hj : j < (numeric_cols n).toNat) :
    (genRow o cats n k).1.getD j "" = ""
      ∨ isTwoFracString ((genRow o cats n k).1.getD j "") := by
  have hns : ((genNumerics o (numeric_cols n).toNat k).1).length = (numeric_cols n).toNat :=
    genNumerics_length o _ k
  have hstep : (genRow o cats n k).1.getD j ""
      = ((genNumerics o (numeric_cols n).toNat k).1).getD j "" := by
    rw [genRow_eq, List.getD_append, List.getD_append]
    · omega
    · simp only [List.length_append]
      omega
  rw [hstep]
  have hmem : ((genNumerics o (numeric_cols n).toNat k).1).getD j ""
      ∈ (genNumerics o (numeric_cols n).toNat k).1 := by
    rw [List.getD_eq_getElem _ _ (by omega)]
    exact List.getElem_mem _
  obtain ⟨j', hj'⟩ := genNumerics_mem o _ k _ hmem
  rw [hj']
  exact genNumericField_shape o j'

theorem genRow_categorical (o : Oracle) (cats : List (List String)) (n : ℤ) (k : Nat)
    (i : Nat) (hi : i < (categorical_cols n).toNat) :
    (genRow o cats n k).1.getD ((numeric_cols n).toNat + i) "" = ""
      ∨ (genRow o cats n k).1.getD ((numeric_cols n).toNat + i) "" ∈ cats.getD i [] := by
  have hns : ((genNumerics o (numeric_cols n).toNat k).1).length = (numeric_cols n).toNat :=
    genNumerics_length o _ k
  have hcs : ((genCategoricals o cats (pyRange (categorical_cols n))
      (genNumerics o (numeric_cols n).toNat k).2).1).length = (categorical_cols n).toNat := by
    rw [genCategoricals_length]
    simp [pyRange]
  have hstep : (genRow o cats n k).1.getD ((numeric_cols n).toNat + i) ""
      = ((genCategoricals o cats (pyRange (categorical_cols n))
          (genNumerics o (numeric_cols n).toNat k).2).1).getD i "" := by
    rw [genRow_eq, List.getD_append, List.getD_append_right]
    · rw [hns]
      simp
    · omega
    · simp only [List.length_append]
      omega
  rw [hstep]
  have hrange : (pyRange (categorical_cols n)).getD i 0 = i := by
    have hilen : i < (pyRange (categorical_cols n)).length := by simp [pyRange]; omega
    rw [List.getD_eq_getElem _ _ hilen]
    simp [pyRange]
  have := genCategoricals_getD o cats (pyRange (categorical_cols n))
    (genNumerics o (numeric_cols n).toNat k).2 i (by simp [pyRange]; omega)
  rwa [hrange] at this

theorem genRow_text (o : Oracle) (cats : List (List String)) (n : ℤ) (k : Nat)
    (j : Nat) (hj1 : (numeric_cols n).toNat + (categorical_cols n).toNat ≤ j)
    (hj2 : j < (numeric_cols n).toNat + (categorical_cols n).toNat + (text_cols n).toNat) :
    (genRow o cats n k).1.getD j "" = ""
      ∨ isTextString ((genRow o cats n k).1.getD j "") := by
  have hns : ((genNumerics o (numeric_cols n).toNat k).1).length = (numeric_cols n).toNat :=
    genNumerics_length o _ k
  have hcs : ((genCategoricals o cats (pyRange (categorical_cols n))
      (genNumerics o (numeric_cols n).toNat k).2).1).length = (categorical_cols n).toNat := by
    rw [genCategoricals_length]
    simp [pyRange]
  have hts : ((genTexts o (text_cols n).toNat
      (genCategoricals o cats (pyRange (categorical_cols n))
        (genNumerics o (numeric_cols n).toNat k).2).2).1).length = (text_cols n).toNat :=
    genTexts_length o _ _
  have hstep : (genRow o cats n k).1.getD j ""
      = ((genTexts o (text_cols n).toNat
          (genCategoricals o cats (pyRange (categorical_cols n))
            (genNumerics o (numeric_cols n).toNat k).2).2).1).getD
          (j - ((numeric_cols n).toNat + (categorical_cols n).toNat)) "" := by
    rw [genRow_eq, List.getD_append_right]
    · simp only [List.length_append]
      rw [hns, hcs]
    · simp only [List.length_append]
      omega
  rw [hstep]
  have hmem : ((genTexts o (text_cols n).toNat
      (genCategoricals o cats (pyRange (categorical_cols n))
        (genNumerics o (numeric_cols n).toNat k).2).2).1).getD
        (j - ((numeric_cols n).toNat + (categorical_cols n).toNat)) ""
      ∈ (genTexts o (text_cols n).toNat
        (genCategoricals o cats (pyRange (categorical_cols n))
          (genNumerics o (numeric_cols n).toNat k).2).2).1 := by
    rw [List.getD_eq_getElem _ _ (by omega)]
    exact List.getElem_mem _
  obtain ⟨j', hj'⟩ := genTexts_mem o _ _ _ hmem
  rw [hj']
  exact genTextField_shape o j'

theorem mkPool_length (i size : Nat) : (mkPool i size).length = size := by
  simp [mkPool]

theorem mkPool_entry_injective (i : Nat) :
    Function.Injective (fun j => "Cat" ++ natStr i ++ "_" ++ natStr j) := by
  intro a b h
  apply natStr_injective
  have hd := congrArg String.data h
  simp only [String.data_append, List.append_assoc] at hd
  have h1 := List.append_cancel_left hd
  have h2 := List.append_cancel_left h1
  have h3 := List.append_cancel_left h2
  exact congrArg String.mk h3

theorem mkPool_nodup (i size : Nat) : (mkPool i size).Nodup :=
  (List.nodup_range size).map (mkPool_entry_injective i)

theorem mkPool_mem (i size : Nat) (s : String) (h : s ∈ mkPool i size) :
    ∃ j, j < size ∧ s = "Cat" ++ natStr i ++ "_" ++ natStr j := by
  simp only [mkPool, List.mem_map, List.mem_range] at h
  obtain ⟨j, hj, hs⟩ := h
  exact ⟨j, hj, hs.symm⟩

theorem mkCategories_length (o : Oracle) :
    ∀ is k, ((mkCategories o is k).1).length = is.length := by
  intro is
  induction is with
  | nil => intro k; rfl
  | cons i is ih => intro k; simp only [mkCategories, List.length_cons, ih]

theorem pyRandint_bounds (o : Oracle) (lo hi k : Nat) (h : lo ≤ hi) :
    lo ≤ (pyRandint o lo hi k).1 ∧ (pyRandint o lo hi k).1 ≤ hi := by
  have := Nat.mod_lt (o.nat k) (show 0 < hi - lo + 1 by omega)
  constructor
  · exact Nat.le_add_right lo _
  · show lo + o.nat k % (hi - lo + 1) ≤ hi
    omega

theorem mkCategories_getD (o : Oracle) :
    ∀ is k j, j < is.length →
      ∃ size, 5 ≤ size ∧ size ≤ 50 ∧
        ((mkCategories o is k).1).getD j [] = mkPool (is.getD j 0) size := by
  intro is
  induction is with
  | nil => intro k j h; simp at h
  | cons i is ih =>
    intro k j hj
    cases j with
    | zero =>
      obtain ⟨h1, h2⟩ := pyRandint_bounds o 5 50 k (by omega)
      exact ⟨(pyRandint o 5 50 k).1, h1, h2, rfl⟩
    | succ j =>
      simp only [mkCategories, List.getD_cons_succ]
      exact ih _ j (by simpa using hj)

theorem mkCategories_mem (o : Oracle) :
    ∀ is k pool, pool ∈ (mkCategories o is k).1 → ∃ i size, pool = mkPool i size := by
  intro is
  induction is with
  | nil => intro k pool h; simp [mkCategories] at h
  | cons i is ih =>
    intro k pool h
    simp only [mkCategories, List.mem_cons] at h
    rcases h with h | h
    · exact ⟨i, (pyRandint o 5 50 k).1, h⟩
    · exact ih _ pool h

theorem genRows_length (o : Oracle) (cats : List (List String)) (n : ℤ) :
    ∀ m k, ((genRows o cats n m k).1).length = m := by
  intro m
  induction m with
  | zero => intro k; rfl
  | succ m ih => intro k; simp only [genRows, List.length_cons, ih]

theorem genRows_mem (o : Oracle) (cats : List (List String)) (n : ℤ) :
    ∀ m k r, r ∈ (genRows o cats n m k).1 → ∃ j, r = (genRow o cats n j).1 := by
  intro m
  induction m with
  | zero => intro k r h; simp [genRows] at h
  | succ m ih =>
    intro k r h
    simp only [genRows, List.mem_cons] at h
    rcases h with h | h
    · exact ⟨k, h⟩
    · exact ih _ r h

theorem genTextField_empty_iff (o : Oracle) (k : Nat) :
    (genTextField o k).1 = "" ↔ o.unif k < mkRat 3 100 := by
  constructor
  · intro h
    by_contra hcon
    simp only [genTextField, pyRandom, pyRandint, pyChoices] at h
    rw [if_neg hcon] at h
    have := congrArg (fun s => s.data.length) h
    simp [pyChoices] at this
  · intro h
    simp only [genTextField, pyRandom]
    rw [if_pos h]

theorem generate_length (o : Oracle) (rows n : ℤ) :
    (generate_test_csv o rows n).length = rows.toNat + 1 := by
  simp [generate_test_csv, genRows_length]

theorem generate_head (o : Oracle) (rows n : ℤ) :
    (generate_test_csv o rows n).getD 0 [] = headers n := rfl

theorem generate_tail (o : Oracle) (rows n : ℤ) :
    (generate_test_csv o rows n).tail
      = (genRows o (categories o n 0).1 n rows.toNat (categories o n 0).2).1 := rfl

theorem generate_tail_mem (o : Oracle) (rows n : ℤ) (r : List String)
    (h : r ∈ (generate_test_csv o rows n).tail) :
    ∃ j, r = (genRow o (categories o n 0).1 n j).1 := by
  rw [generate_tail] at h
  exact genRows_mem o _ n _ _ r h

theorem headers_length (n : ℤ) :
    (headers n).length
      = (numeric_cols n).toNat + (categorical_cols n).toNat + (text_cols n).toNat := by
  simp [headers, pyRange]
  omega

theorem headers_getD_numeric (n : ℤ) (j : Nat) (hj : j < (numeric_cols n).toNat) :
    (headers n).getD j "" = "numeric_" ++ natStr j := by
  rw [headers, List.getD_append, List.getD_append]
  · rw [List.getD_eq_getElem _ _ (by simp [pyRange]; omega)]
    simp [pyRange]
  · simp [pyRange]; omega
  · simp [pyRange]
    omega

theorem headers_getD_categorical (n : ℤ) (i : Nat) (hi : i < (categorical_cols n).toNat) :
    (headers n).getD ((numeric_cols n).toNat + i) "" = "category_" ++ natStr i := by
  rw [headers, List.getD_append, List.getD_append_right]
  · rw [show ((pyRange (numeric_cols n)).map (fun i => "numeric_" ++ natStr i)).length
        = (numeric_cols n).toNat by simp [pyRange]]
    rw [List.getD_eq_getElem _ _ (by simp [pyRange]; omega)]
    simp [pyRange]
  · simp [pyRange]
  · simp [pyRange]; omega

theorem headers_getD_text (n : ℤ) (j : Nat) (hj : j < (text_cols n).toNat) :
    (headers n).getD ((numeric_cols n).toNat + (categorical_cols n).toNat + j) ""
      = "text_" ++ natStr j := by
  rw [headers, List.getD_append_right]
  · rw [show (((pyRange (numeric_cols n)).map (fun i => "numeric_" ++ natStr i))
        ++ ((pyRange (categorical_cols n)).map (fun i => "category_" ++ natStr i))).length
        = (numeric_cols n).toNat + (categorical_cols n).toNat by simp [pyRange]]
    rw [List.getD_eq_getElem _ _ (by simp [pyRange]; omega)]
    simp [pyRange]
  · simp [pyRange]

theorem clean_of_digit (c : Char) (h : isDigitChar c = true) :
    c ≠ ',' ∧ c ≠ '"' ∧ c ≠ '\n' ∧ c ≠ '\r' := by
  refine ⟨?_, ?_, ?_, ?_⟩ <;> rintro rfl <;> exact absurd h (by decide)

theorem cleanField_empty : cleanField "" := by
  intro c hc
  have hnil : ("" : String).data = [] := rfl
  rw [hnil] at hc
  exact absurd hc (List.not_mem_nil c)

theorem cleanField_natPrefix (pre : String) (m : Nat)
    (hpre : ∀ c ∈ pre.data, c ≠ ',' ∧ c ≠ '"' ∧ c ≠ '\n' ∧ c ≠ '\r') :
    cleanField (pre ++ natStr m) := by
  intro c hc
  rw [String.data_append, List.mem_append] at hc
  rcases hc with hc | hc
  · exact hpre c hc
  · exact clean_of_digit c (natToDigits_digits m c hc)

theorem cleanField_of_twoFrac (s : String) (h : isTwoFracString s) : cleanField s := by
  obtain ⟨neg, ipcs, d1, d2, -, hdig, hd1, hd2, hdata⟩ := h
  intro c hc
  rw [hdata] at hc
  rcases List.mem_append.mp hc with hAB | htail
  · rcases List.mem_append.mp hAB with hA | hB
    · cases neg with
      | false => simp at hA
      | true =>
        have : c = '-' := by simpa using hA
        subst this
        exact ⟨by decide, by decide, by decide, by decide⟩
    · exact clean_of_digit c (hdig c hB)
  · rcases List.mem_cons.mp htail with hdot | htail2
    · subst hdot
      exact ⟨by decide, by decide, by decide, by decide⟩
    · rcases List.mem_cons.mp htail2 with h1 | htail3
      · subst h1
        exact clean_of_digit _ hd1
      · have : c = d2 := by simpa using htail3
        subst this
        exact clean_of_digit _ hd2

theorem clean_of_alphabet : ∀ c ∈ alphabet,
    c ≠ ',' ∧ c ≠ '"' ∧ c ≠ '\n' ∧ c ≠ '\r' := by decide

theorem cleanField_of_text (s : String) (h : isTextString s) : cleanField s := by
  obtain ⟨-, -, hmem⟩ := h
  intro c hc
  exact clean_of_alphabet c (hmem c hc)

theorem cleanField_mkPool (i size : Nat) (s : String) (h : s ∈ mkPool i size) :
    cleanField s := by
  obtain ⟨j, -, hs⟩ := mkPool_mem i size s h
  subst hs
  intro c hc
  simp only [String.data_append, List.append_assoc, List.mem_append] at hc
  rcases hc with hc | hc | hc | hc
  · have : c = 'C' ∨ c = 'a' ∨ c = 't' := by simpa using hc
    rcases this with rfl | rfl | rfl <;> exact ⟨by decide, by decide, by decide, by decide⟩
  · exact clean_of_digit c (natToDigits_digits i c hc)
  · have : c = '_' := by simpa using hc
    subst this
    exact ⟨by decide, by decide, by decide, by decide⟩
  · exact clean_of_digit c (natToDigits_digits j c hc)

theorem clean_chars_numericName : ∀ c ∈ "numeric_".data,
    c ≠ ',' ∧ c ≠ '"' ∧ c ≠ '\n' ∧ c ≠ '\r' := by decide

theorem clean_chars_categoryName : ∀ c ∈ "category_".data,
    c ≠ ',' ∧ c ≠ '"' ∧ c ≠ '\n' ∧ c ≠ '\r' := by decide

theorem clean_chars_textName : ∀ c ∈ "text_".data,
    c ≠ ',' ∧ c ≠ '"' ∧ c ≠ '\n' ∧ c ≠ '\r' := by decide

theorem cleanField_headers (n : ℤ) (s : String) (h : s ∈ headers n) : cleanField s := by
  rw [headers] at h
  simp only [List.mem_append, List.mem_map] at h
  rcases h with (⟨i, -, hs⟩ | ⟨i, -, hs⟩) | ⟨i, -, hs⟩
  · exact hs ▸ cleanField_natPrefix _ i clean_chars_numericName
  · exact hs ▸ cleanField_natPrefix _ i clean_chars_categoryName
  · exact hs ▸ cleanField_natPrefix _ i clean_chars_textName

theorem needsQuote_eq_false (s : String) (h : cleanField s) : needsQuote s = false := by
  rw [needsQuote, List.any_eq_false]
  intro c hc
  obtain ⟨h1, h2, h3, h4⟩ := h c hc
  simp [h1, h2, h3, h4]

theorem csvField_eq_self (s : String) (h : cleanField s) : csvField s = s := by
  rw [csvField, needsQuote_eq_false s h]
  rfl

theorem mem_joinComma : ∀ (L : List (List Char)) (c : Char), c ∈ joinComma L →
    c = ',' ∨ ∃ l ∈ L, c ∈ l := by
  intro L
  induction L with
  | nil => intro c h; simp [joinComma] at h
  | cons x xs ih =>
    cases xs with
    | nil =>
      intro c h
      simp only [joinComma] at h
      exact Or.inr ⟨x, by simp, h⟩
    | cons y ys =>
      intro c h
      rw [show joinComma (x :: y :: ys) = x ++ ',' :: joinComma (y :: ys) from rfl] at h
      rcases List.mem_append.mp h with h | h
      · exact Or.inr ⟨x, by simp, h⟩
      · rcases List.mem_cons.mp h with h | h
        · exact Or.inl h
        · rcases ih c h with h | ⟨l, hl, hcl⟩
          · exact Or.inl h
          · exact Or.inr ⟨l, List.mem_cons_of_mem x hl, hcl⟩

theorem recordBody_no_newline (r : List String) (h : ∀ f ∈ r, cleanField f) :
    ∀ c ∈ recordBody r, c ≠ '\n' ∧ c ≠ '\r' := by
  intro c hc
  simp only [recordBody] at hc
  by_cases hone : r = [""]
  case pos =>
    rw [if_pos hone] at hc
    have hq : c = '"' := by simpa using hc
    subst hq
    exact ⟨by decide, by decide⟩
  case neg =>
  rw [if_neg hone] at hc
  rcases mem_joinComma _ c hc with hcomma | ⟨l, hl, hcl⟩
  · subst hcomma
    exact ⟨by decide, by decide⟩
  · obtain ⟨f, hf, hfl⟩ := List.mem_map.mp hl
    subst hfl
    rw [csvField_eq_self f (h f hf)] at hcl
    obtain ⟨-, -, h3, h4⟩ := h f hf c hcl
    exact ⟨h3, h4⟩

theorem generate_row_fields_clean (o : Oracle) (rows n : ℤ) (r : List String)
    (hr : r ∈ generate_test_csv o rows n) : ∀ f ∈ r, cleanField f := by
  rcases List.mem_cons.mp hr with hhead | htail
  · subst hhead
    intro f hf
    exact cleanField_headers n f hf
  · obtain ⟨j, hj⟩ := genRows_mem o _ n _ _ r htail
    subst hj
    intro f hf
    rw [genRow_eq] at hf
    rcases List.mem_append.mp hf with hf2 | hts
    · rcases List.mem_append.mp hf2 with hns | hcs
      · obtain ⟨j', hj'⟩ := genNumerics_mem o _ _ f hns
        subst hj'
        rcases genNumericField_shape o j' with he | hshape
        · rw [he]; exact cleanField_empty
        · exact cleanField_of_twoFrac _ hshape
      · rcases genCategoricals_mem o _ _ _ f hcs with he | ⟨i, hpool⟩
        · rw [he]; exact cleanField_empty
        · by_cases hi : i < ((categories o n 0).1).length
          · have hmem : ((categories o n 0).1).getD i [] ∈ (categories o n 0).1 := by
              rw [List.getD_eq_getElem _ _ hi]
              exact List.getElem_mem hi
            obtain ⟨i', size, heq⟩ := mkCategories_mem o _ _ _ hmem
            rw [heq] at hpool
            exact cleanField_mkPool i' size f hpool
          · rw [List.getD_eq_default _ _ (by omega)] at hpool
            exact absurd hpool (List.not_mem_nil f)
    · obtain ⟨j', hj'⟩ := genTexts_mem o _ _ f hts
      subst hj'
      rcases genTextField_shape o j' with he | hshape
      · rw [he]; exact cleanField_empty
      · exact cleanField_of_text _ hshape


/-- C2: for every `column_count`, the partition computed at the start of a run
satisfies `numeric = total // 3`, `categorical = total // 3`,
`text = total - numeric - categorical`, hence the three groups sum to the
total, the whole floor-division remainder going to the text group. -/
theorem claim2_partition (n : ℤ) :
    numeric_cols n = Int.fdiv n 3
    ∧ categorical_cols n = Int.fdiv n 3
    ∧ text_cols n = n - numeric_cols n - categorical_cols n
    ∧ numeric_cols n + categorical_cols n + text_cols n = n := by
  refine ⟨rfl, rfl, rfl, ?_⟩
  rw [text_cols]
  ring

/-- C3: the header row is the ordered concatenation of the numeric names,
then the categorical names, then the text names, each group zero-indexed
independently, with names `numeric_<i>`, `category_<i>`, `text_<i>`. -/
theorem claim3_header_names (n : ℤ) (j : Nat) :
    (headers n).length
      = (numeric_cols n).toNat + (categorical_cols n).toNat + (text_cols n).toNat
    ∧ (j < (numeric_cols n).toNat →
        (headers n).getD j "" = "numeric_" ++ natStr j)
    ∧ (j < (categorical_cols n).toNat →
        (headers n).getD ((numeric_cols n).toNat + j) "" = "category_" ++ natStr j)
    ∧ (j < (text_cols n).toNat →
        (headers n).getD ((numeric_cols n).toNat + (categorical_cols n).toNat + j) ""
          = "text_" ++ natStr j) :=
  ⟨headers_length n, headers_getD_numeric n j,
   headers_getD_categorical n j, headers_getD_text n j⟩

theorem claim3_header_names_witness :
    (headers 9).getD 1 "" = "numeric_" ++ natStr 1
    ∧ (headers 9).getD ((numeric_cols 9).toNat + 1) "" = "category_" ++ natStr 1
    ∧ (headers 9).getD ((numeric_cols 9).toNat + (categorical_cols 9).toNat + 1) ""
        = "text_" ++ natStr 1 :=
  ⟨(claim3_header_names 9 1).2.1 (by decide),
   (claim3_header_names 9 1).2.2.1 (by decide),
   (claim3_header_names 9 1).2.2.2 (by decide)⟩

theorem cols_toNat_sum (n : ℤ) (hn : 0 ≤ n) :
    (numeric_cols n).toNat + (categorical_cols n).toNat + (text_cols n).toNat
      = n.toNat := by
  simp only [numeric_cols, categorical_cols, text_cols]
  rw [Int.fdiv_eq_ediv n (by norm_num)]
  omega

/-- C1: a completed run with `column_count ≥ 3` and `row_count ≥ 0` produces
exactly one header record followed by exactly `row_count` data records
(`row_count + 1` records in all), the header having `column_count` fields and
every data record having `column_count` fields. -/
theorem claim1_file_shape (o : Oracle) (rows n : ℤ) (hr : 0 ≤ rows) (hn : 3 ≤ n) :
    (generate_test_csv o rows n).length = rows.toNat + 1
    ∧ (generate_test_csv o rows n).getD 0 [] = headers n
    ∧ (headers n).length = n.toNat
    ∧ ∀ r ∈ (generate_test_csv o rows n).tail, r.length = n.toNat := by
  refine ⟨generate_length o rows n, generate_head o rows n, ?_, ?_⟩
  · rw [headers_length, cols_toNat_sum n (by omega)]
  · intro r hmem
    obtain ⟨j, hj⟩ := generate_tail_mem o rows n r hmem
    rw [hj, genRow_length, cols_toNat_sum n (by omega)]

theorem claim1_file_shape_witness :
    (generate_test_csv o0 1000 9).length = (1000 : ℤ).toNat + 1
    ∧ (headers 9).length = (9 : ℤ).toNat
    ∧ (generate_test_csv o0 0 9).length = (0 : ℤ).toNat + 1 :=
  ⟨(claim1_file_shape o0 1000 9 (by decide) (by decide)).1,
   (claim1_file_shape o0 1000 9 (by decide) (by decide)).2.2.1,
   (claim1_file_shape o0 0 9 (by decide) (by decide)).1⟩


/-- C4: for every categorical column `i`, one pool of distinct labels
`Cat<i>_<j>` of size between 5 and 50 inclusive is generated before any row
is written, and every non-null categorical field of every data row is a
member of that same fixed pool. -/
theorem claim4_pools (o : Oracle) (rows n : ℤ) (i : Nat) :
    ((categories o n 0).1).length = (categorical_cols n).toNat
    ∧ (i < (categorical_cols n).toNat →
        ∃ size, 5 ≤ size ∧ size ≤ 50
          ∧ ((categories o n 0).1).getD i [] = mkPool i size
          ∧ (((categories o n 0).1).getD i []).length = size
          ∧ (((categories o n 0).1).getD i []).Nodup)
    ∧ ∀ r ∈ (generate_test_csv o rows n).tail, i < (categorical_cols n).toNat →
        r.getD ((numeric_cols n).toNat + i) "" = ""
        ∨ r.getD ((numeric_cols n).toNat + i) "" ∈ ((categories o n 0).1).getD i [] := by
  refine ⟨?_, ?_, ?_⟩
  · rw [categories, mkCategories_length]
    simp [pyRange]
  · intro hi
    obtain ⟨size, h5, h50, heq⟩ :=
      mkCategories_getD o (pyRange (categorical_cols n)) 0 i (by simp [pyRange]; omega)
    have hrange : (pyRange (categorical_cols n)).getD i 0 = i := by
      rw [List.getD_eq_getElem _ _ (by simp [pyRange]; omega)]
      simp [pyRange]
    rw [hrange] at heq
    rw [categories]
    refine ⟨size, h5, h50, heq, ?_, ?_⟩
    · rw [heq, mkPool_length]
    · rw [heq]
      exact mkPool_nodup i size
  · intro r hmem hi
    obtain ⟨j, hj⟩ := generate_tail_mem o rows n r hmem
    rw [hj]
    exact genRow_categorical o _ n j i hi

theorem claim4_pools_witness :
    (∃ size, 5 ≤ size ∧ size ≤ 50
      ∧ ((categories o0 9 0).1).getD 0 [] = mkPool 0 size
      ∧ (((categories o0 9 0).1).getD 0 []).length = size
      ∧ (((categories o0 9 0).1).getD 0 []).Nodup)
    ∧ (((generate_test_csv o0 1 9).tail.getD 0 []).getD ((numeric_cols 9).toNat + 0) "" = ""
       ∨ ((generate_test_csv o0 1 9).tail.getD 0 []).getD ((numeric_cols 9).toNat + 0) ""
           ∈ ((categories o0 9 0).1).getD 0 []) :=
  ⟨(claim4_pools o0 1 9 0).2.1 (by decide),
   (claim4_pools o0 1 9 0).2.2 _ (by decide) (by decide)⟩

/-- C5: a numeric field is empty exactly when its uniform draw is below 0.05,
otherwise it is the Gaussian sample (mean 100, deviation 50) rendered with
exactly two digits after the decimal point; in every data row of every run,
every numeric-column field is empty or such a two-fraction-digit decimal. -/
theorem claim5_numeric_fields (o : Oracle) (rows n : ℤ) (k : Nat) :
    ((genNumericField o k).1 = "" ↔ o.unif k < mkRat 5 100)
    ∧ (¬ o.unif k < mkRat 5 100 →
        (genNumericField o k).1 = formatFixed2 (pyGauss o 100 50 (k + 1)).1)
    ∧ (∀ q, isTwoFracString (formatFixed2 q))
    ∧ ∀ r ∈ (generate_test_csv o rows n).tail, ∀ j, j < (numeric_cols n).toNat →
        r.getD j "" = "" ∨ isTwoFracString (r.getD j "") := by
  refine ⟨genNumericField_empty_iff o k, genNumericField_of_not_lt o k,
    formatFixed2_shape, ?_⟩
  intro r hmem j hj
  obtain ⟨i, hi⟩ := generate_tail_mem o rows n r hmem
  rw [hi]
  exact genRow_numeric o _ n i j hj

theorem claim5_numeric_fields_witness :
    ((genNumericField o1 0).1 = formatFixed2 (pyGauss o1 100 50 1).1)
    ∧ (((generate_test_csv o1 1 9).tail.getD 0 []).getD 0 "" = ""
       ∨ isTwoFracString (((generate_test_csv o1 1 9).tail.getD 0 []).getD 0 "")) :=
  ⟨(claim5_numeric_fields o1 1 9 0).2.1 (by decide),
   (claim5_numeric_fields o1 1 9 0).2.2.2 _ (by decide) 0 (by decide)⟩

/-- C6: a text field is empty exactly when its uniform draw is below 0.03,
and in every data row of every run, every text-column field is empty or a
string of 10 to 50 characters drawn from the alphabet of ASCII letters,
digits and space. -/
theorem claim6_text_fields (o : Oracle) (rows n : ℤ) (k : Nat) :
    ((genTextField o k).1 = "" ↔ o.unif k < mkRat 3 100)
    ∧ ∀ r ∈ (generate_test_csv o rows n).tail, ∀ j,
        (numeric_cols n).toNat + (categorical_cols n).toNat ≤ j → j < r.length →
        r.getD j "" = "" ∨ isTextString (r.getD j "") := by
  refine ⟨genTextField_empty_iff o k, ?_⟩
  intro r hmem j hj1 hj2
  obtain ⟨i, hi⟩ := generate_tail_mem o rows n r hmem
  rw [hi] at hj2 ⊢
  rw [genRow_length] at hj2
  exact genRow_text o _ n i j hj1 hj2

theorem claim6_text_fields_witness :
    ((generate_test_csv o1 1 9).tail.getD 0 []).getD 6 "" = ""
    ∨ isTextString (((generate_test_csv o1 1 9).tail.getD 0 []).getD 6 "") :=
  (claim6_text_fields o1 1 9 0).2 _ (by decide) 6 (by decide) (by decide)


/-- C7 counterexample: at `column_count = -1` (which is `≤ 0`) the run does
not produce a header with zero columns: since `-1 // 3 = -1` in floor
division, `text_cols = -1 - (-1) - (-1) = 1` and the header has the single
column `text_0`. -/
theorem claim7_counterexample :
    (-1 : ℤ) ≤ 0
    ∧ generate_test_csv o0 0 (-1) = [["text_0"]]
    ∧ (headers (-1)).length = 1 := by
  refine ⟨by decide, by decide, by decide⟩

/-- C7 (amended): a run with `row_count ≤ 0` produces the header record only
(whatever the column count), and a run with `column_count ≤ 0` produces a
header with zero columns (whatever the row count), except for
`column_count = -1`, which produces a header with the single text column
`text_0`. -/
theorem claim7_amended (o : Oracle) (rows n : ℤ) :
    (rows ≤ 0 → generate_test_csv o rows n = [headers n])
    ∧ (n ≤ 0 → headers n = (if n = -1 then ["text_0"] else [])) := by
  constructor
  · intro hr
    have h0 : rows.toNat = 0 := by omega
    show (headers n)
        :: (genRows o (categories o n 0).1 n rows.toNat (categories o n 0).2).1
      = [headers n]
    rw [h0]
    rfl
  · intro hn
    by_cases hne : n = -1
    · subst hne
      rw [if_pos rfl]
      decide
    · rw [if_neg hne]
      have h1 : (numeric_cols n).toNat = 0 := by
        simp only [numeric_cols]
        rw [Int.fdiv_eq_ediv n (by norm_num)]
        omega
      have h2 : (categorical_cols n).toNat = 0 := by
        simp only [categorical_cols]
        rw [Int.fdiv_eq_ediv n (by norm_num)]
        omega
      have h3 : (text_cols n).toNat = 0 := by
        simp only [text_cols, numeric_cols, categorical_cols]
        rw [Int.fdiv_eq_ediv n (by norm_num)]
        omega
      rw [headers]
      simp [pyRange, h1, h2, h3]

theorem claim7_amended_witness :
    generate_test_csv o0 0 100 = [headers 100]
    ∧ headers (-1) = (if (-1 : ℤ) = -1 then ["text_0"] else [])
    ∧ headers (-2) = (if (-2 : ℤ) = -1 then ["text_0"] else []) :=
  ⟨(claim7_amended o0 0 100).1 (by decide),
   (claim7_amended o0 1000 (-1)).2 (by decide),
   (claim7_amended o0 1000 (-2)).2 (by decide)⟩

/-- C8: an invocation whose first or second positional argument fails integer
parsing aborts with the parse error (nonzero exit status) before the
generator runs, so no output is produced; a normally completing run has exit
status 0. -/
theorem claim8_cli (o : Oracle) (argv : List String) :
    (argv.length > 1 → pyInt (argv.getD 1 "") = none →
      runMain o argv = Except.error "ValueError" ∧ exitCode (runMain o argv) = 1)
    ∧ (argv.length > 2 → pyInt (argv.getD 2 "") = none →
      (∃ e, runMain o argv = Except.error e) ∧ exitCode (runMain o argv) = 1)
    ∧ (∀ out, runMain o argv = Except.ok out → exitCode (runMain o argv) = 0)
    ∧ (∀ e, runMain o argv = Except.error e →
        ∀ out, runMain o argv ≠ Except.ok out) := by
  refine ⟨?_, ?_, ?_, ?_⟩
  · intro h1 h2
    have hrow : rowsArg argv = Except.error "ValueError" := by
      simp only [rowsArg]
      rw [if_pos h1, h2]
    exact ⟨by simp [runMain, hrow], by simp [runMain, exitCode, hrow]⟩
  · intro h1 h2
    have hcol : colsArg argv = Except.error "ValueError" := by
      simp only [colsArg]
      rw [if_pos h1, h2]
    rcases hrow : rowsArg argv with e | rv
    · exact ⟨⟨e, by simp [runMain, hrow]⟩, by simp [runMain, exitCode, hrow]⟩
    · exact ⟨⟨"ValueError", by simp [runMain, hrow, hcol]⟩,
        by simp [runMain, exitCode, hrow, hcol]⟩
  · intro out hok
    rcases hrow : rowsArg argv with e | rv
    · simp [runMain, hrow] at hok
    · rcases hcol : colsArg argv with e | cv
      · simp [runMain, hrow, hcol] at hok
      · simp [exitCode, runMain, hrow, hcol]
  · intro e he out
    rw [he]
    intro hcon
    exact Except.noConfusion hcon

theorem claim8_cli_witness :
    (runMain o0 ["prog", "abc"] = Except.error "ValueError"
      ∧ exitCode (runMain o0 ["prog", "abc"]) = 1)
    ∧ ((∃ e, runMain o0 ["prog", "1", "x2"] = Except.error e)
      ∧ exitCode (runMain o0 ["prog", "1", "x2"]) = 1)
    ∧ exitCode (runMain o0 ["prog", "0", "3"]) = 0 :=
  ⟨(claim8_cli o0 ["prog", "abc"]).1 (by decide) (by decide),
   (claim8_cli o0 ["prog", "1", "x2"]).2.1 (by decide) (by decide),
   (claim8_cli o0 ["prog", "0", "3"]).2.2.1
     ("test_5M_100cols.csv", [["numeric_0", "category_0", "text_0"]]) rfl⟩

/-- C9 counterexample: not every emitted record is free of quoting. With one
column (`column_count = 1`) and a null draw, the data row is the single empty
field, and `csv.writer` writes that record as the quoted empty field: the
physical line is two quote characters and the terminator, not the plain
(empty) comma-join of the record. -/
theorem claim9_counterexample :
    (generate_test_csv o0 1 1).tail = [[""]]
    ∧ csvRecord [""] = String.mk ['"', '"', '\r', '\n']
    ∧ String.mk ['"', '"', '\r', '\n']
        ≠ String.mk (joinComma ([""].map (fun f => f.data)) ++ ['\r', '\n']) := by
  refine ⟨by decide, by decide, by decide⟩

/-- C9 (amended): every field value the generator ever emits (header names,
numeric strings, category labels, text strings and the empty null field)
contains no comma, no quote character and no line break, so the per-field
quoting rule never triggers and every record is written as the plain
comma-join of its fields — except a record consisting of exactly one empty
field (reachable when the header has one column), which `csv.writer` writes
as the quoted empty field; in every case the record body holds no line
break, so every record occupies exactly one physical line. -/
theorem claim9_fields_clean (o : Oracle) (rows n : ℤ) :
    ∀ r ∈ generate_test_csv o rows n,
      (∀ f ∈ r, cleanField f ∧ csvField f = f)
      ∧ (r ≠ [""] → recordBody r = joinComma (r.map (fun f => f.data)))
      ∧ (r = [""] → recordBody r = ['"', '"'])
      ∧ (∀ c ∈ recordBody r, c ≠ '\n' ∧ c ≠ '\r')
      ∧ csvRecord r = String.mk (recordBody r ++ ['\r', '\n']) := by
  intro r hr
  have hclean := generate_row_fields_clean o rows n r hr
  refine ⟨fun f hf => ⟨hclean f hf, csvField_eq_self f (hclean f hf)⟩, ?_, ?_,
    recordBody_no_newline r hclean, rfl⟩
  · intro hne
    simp only [recordBody]
    rw [if_neg hne]
    exact congrArg joinComma (List.map_congr_left
      (fun f hf => congrArg String.data (csvField_eq_self f (hclean f hf))))
  · intro hone
    subst hone
    rfl

theorem claim9_fields_clean_witness :
    csvField "numeric_0" = "numeric_0"
    ∧ recordBody (headers 3) = joinComma ((headers 3).map (fun f => f.data))
    ∧ recordBody [""] = ['"', '"'] :=
  ⟨((claim9_fields_clean o0 1 3 (headers 3) (by decide)).1 "numeric_0" (by decide)).2,
   (claim9_fields_clean o0 1 3 (headers 3) (by decide)).2.1 (by decide),
   (claim9_fields_clean o0 1 1 [""] (by decide)).2.2.1 rfl⟩

theorem smallcols_row_fields (o : Oracle) (rows n : ℤ)
    (hnc : (numeric_cols n).toNat = 0) (hcc : (categorical_cols n).toNat = 0) :
    ∀ r ∈ (generate_test_csv o rows n).tail, ∀ f ∈ r, f = "" ∨ isTextString f := by
  intro r hr f hf
  obtain ⟨j, hj⟩ := generate_tail_mem o rows n r hr
  subst hj
  rw [genRow_eq] at hf
  have h1 : ((genNumerics o (numeric_cols n).toNat j).1) = [] :=
    List.length_eq_zero.mp ((genNumerics_length o (numeric_cols n).toNat j).trans hnc)
  have h2 : ((genCategoricals o (categories o n 0).1 (pyRange (categorical_cols n))
      (genNumerics o (numeric_cols n).toNat j).2).1) = [] := by
    have hlen := genCategoricals_length o (categories o n 0).1
      (pyRange (categorical_cols n)) (genNumerics o (numeric_cols n).toNat j).2
    exact List.length_eq_zero.mp (hlen.trans (by simp [pyRange, hcc]))
  rw [h1, h2] at hf
  simp only [List.nil_append] at hf
  obtain ⟨j2, hj2⟩ := genTexts_mem o _ _ f hf
  subst hj2
  exact genTextField_shape o j2

/-- C10: with `column_count` equal to 1 or 2, the partition yields zero
numeric and zero categorical columns, the header consists solely of text
column names, no category pools are generated (and no randomness is consumed
for them), and every field of every data row is a text field. -/
theorem claim10_small_columns (o : Oracle) (rows : ℤ) (k : Nat) :
    numeric_cols 1 = 0 ∧ categorical_cols 1 = 0 ∧ text_cols 1 = 1
    ∧ numeric_cols 2 = 0 ∧ categorical_cols 2 = 0 ∧ text_cols 2 = 2
    ∧ headers 1 = ["text_0"] ∧ headers 2 = ["text_0", "text_1"]
    ∧ categories o 1 k = ([], k) ∧ categories o 2 k = ([], k)
    ∧ (∀ r ∈ (generate_test_csv o rows 1).tail,
        r.length = 1 ∧ ∀ f ∈ r, f = "" ∨ isTextString f)
    ∧ (∀ r ∈ (generate_test_csv o rows 2).tail,
        r.length = 2 ∧ ∀ f ∈ r, f = "" ∨ isTextString f) := by
  refine ⟨by decide, by decide, by decide, by decide, by decide, by decide,
    by decide, by decide, rfl, rfl, ?_, ?_⟩
  · intro r hr
    refine ⟨?_, smallcols_row_fields o rows 1 (by decide) (by decide) r hr⟩
    obtain ⟨j, hj⟩ := generate_tail_mem o rows 1 r hr
    rw [hj, genRow_length]
    decide
  · intro r hr
    refine ⟨?_, smallcols_row_fields o rows 2 (by decide) (by decide) r hr⟩
    obtain ⟨j, hj⟩ := generate_tail_mem o rows 2 r hr
    rw [hj, genRow_length]
    decide

theorem claim10_small_columns_witness :
    ((generate_test_csv o1 1 1).tail.getD 0 []).length = 1
    ∧ ("aaaaaaaaaa" = "" ∨ isTextString "aaaaaaaaaa") :=
  ⟨((claim10_small_columns o1 1 0).2.2.2.2.2.2.2.2.2.2.1 _ (by decide)).1,
   ((claim10_small_columns o1 1 0).2.2.2.2.2.2.2.2.2.2.1
     ((generate_test_csv o1 1 1).tail.getD 0 []) (by decide)).2 "aaaaaaaaaa" (by decide)⟩

end Beefcake
